import Mathlib

set_option maxHeartbeats 1000000

/-! Verification of the session-scoped agent orchestration layer of
`src/agents/langgraph_task_agent.py`: the result extractor
(`_extract_assistant_text`), the time tool (`get_time_func`), the task tools,
the inline session-to-thread router of `process_message`, and the
`process_message` orchestrator itself. Python values are embedded as `PyVal`,
external effects (the reasoning engine, the timezone database, the task store)
are passed in as oracles, and the asyncio execution model is embedded as an
interleaving of atomic segments separated by `await` points. -/

/-- A Python runtime value, at the granularity the extractor observes:
`None`, strings, integers, booleans, lists, string-keyed dictionaries and
attribute-bearing objects (attribute name to value). -/
inductive PyVal where
  | none : PyVal
  | str : String → PyVal
  | int : Int → PyVal
  | bool : Bool → PyVal
  | list : List PyVal → PyVal
  | dict : List (String × PyVal) → PyVal
  | obj : List (String × PyVal) → PyVal
deriving Repr

/-- The only exception class the embedded code distinguishes (`reversed` on a
non-sequence raises `TypeError`). -/
inductive PyErr where
  | typeError : PyErr
deriving DecidableEq, Repr

/-- Python truthiness, as used by `if not thread_id`, `and content`,
`if not tasks`, etc. -/
def pyTruthy : PyVal → Bool
  | .none => false
  | .str s => !s.isEmpty
  | .int n => n != 0
  | .bool b => b
  | .list l => !l.isEmpty
  | .dict d => !d.isEmpty
  | .obj _ => true

/-- `getattr(v, name, dflt)`: attribute lookup with a default. Only
attribute-bearing objects expose the attributes the extractor asks for;
every other embedded value falls through to the default. -/
def pyGetattr (v : PyVal) (name : String) (dflt : PyVal) : PyVal :=
  match v with
  | .obj attrs => (attrs.lookup name).getD dflt
  | _ => dflt

/-- `v.get(key)` on a dictionary (default `None`); the source only calls it
under an `isinstance(v, dict)` guard. -/
def pyDictGet (v : PyVal) (key : String) : PyVal :=
  match v with
  | .dict entries => (entries.lookup key).getD PyVal.none
  | _ => PyVal.none

/-- `v.get(key, dflt)` on a dictionary with an explicit default. -/
def pyDictGetD (v : PyVal) (key : String) (dflt : PyVal) : PyVal :=
  match v with
  | .dict entries => (entries.lookup key).getD dflt
  | _ => dflt

/-- `isinstance(v, dict)`. -/
def isDict : PyVal → Bool
  | .dict _ => true
  | _ => false

/-- `reversed(v)`: sequences reverse (a string into its characters, a
dictionary into its keys), everything else raises `TypeError`. -/
def pyReversed : PyVal → Except PyErr (List PyVal)
  | .list l => .ok l.reverse
  | .str s => .ok (s.data.reverse.map fun c => PyVal.str (String.mk [c]))
  | .dict entries => .ok ((entries.map fun kv => PyVal.str kv.1).reverse)
  | _ => .error .typeError

/-- Python `a or b`: the first operand when truthy, the second otherwise. -/
def pyOr (a b : PyVal) : PyVal :=
  if pyTruthy a then a else b

/-- Line 152 of the source: `getattr(msg, "content", None) or
(msg.get("content") if isinstance(msg, dict) else None)`. -/
def msgContent (msg : PyVal) : PyVal :=
  pyOr (pyGetattr msg "content" PyVal.none)
    (if isDict msg then pyDictGet msg "content" else PyVal.none)

/-- Line 153 of the source: `getattr(msg, "type", None) or
(msg.get("type") if isinstance(msg, dict) else None)`. -/
def msgType (msg : PyVal) : PyVal :=
  pyOr (pyGetattr msg "type" PyVal.none)
    (if isDict msg then pyDictGet msg "type" else PyVal.none)

/-- `mtype in ("ai", "assistant")`: only an equal string matches. -/
def isAssistantTag : PyVal → Bool
  | .str s => s == "ai" || s == "assistant"
  | _ => false

/-- The loop guard of line 154: the message's role/type tag is
assistant-authored and its content is truthy. -/
def isReplyMsg (msg : PyVal) : Bool :=
  isAssistantTag (msgType msg) && pyTruthy (msgContent msg)

/-- The `for msg in reversed(messages)` loop body of lines 151-155, applied to
the already-reversed message list: the content of the first match, if any. -/
def scanMessages : List PyVal → Option PyVal
  | [] => Option.none
  | msg :: rest => if isReplyMsg msg then some (msgContent msg) else scanMessages rest

/-- The body of the `try` block of `_extract_assistant_text` (lines 149-155):
may raise (`reversed` on a non-sequence). -/
def extract_core (result : PyVal) : Except PyErr (Option PyVal) := do
  let messages := if isDict result then pyDictGetD result "messages" (PyVal.list []) else PyVal.list []
  let rev ← pyReversed messages
  pure (scanMessages rev)

/-- The fixed fallback string of line 158. -/
def fallbackText : String := "I apologize, but I couldn't process your request."

/-- `_extract_assistant_text` (lines 147-158): the `try` body, with any
internal exception absorbed and the fallback string returned when no
assistant-authored message with truthy content is found. -/
def extract_assistant_text (result : PyVal) : PyVal :=
  match extract_core result with
  | .ok (some content) => content
  | .ok Option.none => PyVal.str fallbackText
  | .error _ => PyVal.str fallbackText

/-- The transcript of claim C3 taken literally: two key/value records keyed
`role` (not `type`). -/
def c3RoleTranscript : PyVal := PyVal.dict [("messages", PyVal.list [
  PyVal.dict [("role", PyVal.str "user"), ("content", PyVal.str "Hello")],
  PyVal.dict [("role", PyVal.str "assistant"), ("content", PyVal.str "This is the answer")]])]

/-- The same transcript with the tag stored under the `type` key, the field the
source actually consults (and the shape the repository's own test uses). -/
def c3TypeTranscript : PyVal := PyVal.dict [("messages", PyVal.list [
  PyVal.dict [("type", PyVal.str "user"), ("content", PyVal.str "Hello")],
  PyVal.dict [("type", PyVal.str "assistant"), ("content", PyVal.str "This is the answer")]])]

/-- C3 counterexample: on the transcript exactly as the claim writes it, with
the tag under the key `role`, the extractor does not return
"This is the answer"; it returns the fallback string, because the source reads
the `type` field of a key/value record and never the `role` field. -/
theorem c3_counterexample :
    extract_assistant_text c3RoleTranscript = PyVal.str fallbackText ∧
    extract_assistant_text c3RoleTranscript ≠ PyVal.str "This is the answer" := by
  refine ⟨rfl, ?_⟩
  intro h
  rw [show extract_assistant_text c3RoleTranscript = PyVal.str fallbackText from rfl] at h
  injection h with h2
  exact absurd h2 (by decide)

/-- C3 (amended): applied to the transcript whose messages are the two
key/value records storing the tag under the `type` key,
with tags "user" and "assistant" and contents "Hello" and
"This is the answer", the result extractor returns exactly the string
"This is the answer". -/
theorem c3_extract_reply_type_tagged :
    extract_assistant_text c3TypeTranscript = PyVal.str "This is the answer" := rfl

/-- The scan loop, applied to the already-reversed messages, returns the
content of the first match, i.e. `find?` of the guard composed with the
content projection. -/
theorem scanMessages_eq_find (l : List PyVal) :
    scanMessages l = (l.find? isReplyMsg).map msgContent := by
  induction l with
  | nil => rfl
  | cons m rest ih =>
      by_cases h : isReplyMsg m
      · simp [scanMessages, List.find?_cons_of_pos, h]
      · simp [scanMessages, List.find?_cons_of_neg, h, ih]

/-- C4: for every transcript (an ordered sequence of messages), the extractor
scans the messages from most recent to oldest and returns the content of the
first message whose role/type tag is assistant-authored and whose content is
truthy (non-empty); if no such message exists — the empty sequence, malformed
messages, or every assistant message empty — it returns the fixed fallback
string. -/
theorem c4_extract_scans_latest_assistant (msgs : List PyVal) :
    extract_assistant_text (PyVal.dict [("messages", PyVal.list msgs)]) =
      match msgs.reverse.find? isReplyMsg with
      | some m => msgContent m
      | Option.none => PyVal.str fallbackText := by
  have hcore : extract_core (PyVal.dict [("messages", PyVal.list msgs)]) =
      Except.ok (scanMessages msgs.reverse) := by
    simp [extract_core, isDict, pyDictGetD, List.lookup, pyReversed]
  rw [extract_assistant_text, hcore, scanMessages_eq_find]
  cases msgs.reverse.find? isReplyMsg <;> simp

/-- C5: the extractor is total over arbitrary result values: any exception of
the inner scan (a result whose `messages` entry is not a sequence) is absorbed
into the fallback; a result that is not a dictionary yields the fallback; and a
message record or attribute-bearing object missing its `type` field or its
`content` field is a non-match, never an error. -/
theorem c5_extractor_total :
    (∀ (result : PyVal) (e : PyErr), extract_core result = Except.error e →
      extract_assistant_text result = PyVal.str fallbackText) ∧
    (∀ result : PyVal, isDict result = false →
      extract_assistant_text result = PyVal.str fallbackText) ∧
    (∀ entries : List (String × PyVal), entries.lookup "type" = Option.none →
      isReplyMsg (PyVal.dict entries) = false) ∧
    (∀ entries : List (String × PyVal), entries.lookup "content" = Option.none →
      isReplyMsg (PyVal.dict entries) = false) ∧
    (∀ attrs : List (String × PyVal), attrs.lookup "type" = Option.none →
      isReplyMsg (PyVal.obj attrs) = false) ∧
    (∀ attrs : List (String × PyVal), attrs.lookup "content" = Option.none →
      isReplyMsg (PyVal.obj attrs) = false) := by
  refine ⟨?_, ?_, ?_, ?_, ?_, ?_⟩
  · intro result e h
    rw [extract_assistant_text, h]
  · intro result h
    rw [extract_assistant_text]
    simp [extract_core, h, pyReversed, scanMessages]
  · intro entries h
    simp [isReplyMsg, msgType, pyGetattr, pyOr, pyTruthy, isDict, pyDictGet, h, isAssistantTag]
  · intro entries h
    simp [isReplyMsg, msgContent, pyGetattr, pyOr, pyTruthy, isDict, pyDictGet, h]
  · intro attrs h
    simp [isReplyMsg, msgType, pyGetattr, pyOr, pyTruthy, isDict, h, isAssistantTag]
  · intro attrs h
    simp [isReplyMsg, msgContent, pyGetattr, pyOr, pyTruthy, isDict, h]

/-- C5 witness: concrete instances — a dict whose `messages` entry is an
integer (the inner scan raises `TypeError`, absorbed into the fallback), a
bare integer result, and a record missing its `type` field. -/
theorem c5_witness :
    extract_assistant_text (PyVal.dict [("messages", PyVal.int 5)]) = PyVal.str fallbackText ∧
    extract_assistant_text (PyVal.int 3) = PyVal.str fallbackText ∧
    isReplyMsg (PyVal.dict [("content", PyVal.str "x")]) = false :=
  ⟨c5_extractor_total.1 (PyVal.dict [("messages", PyVal.int 5)]) PyErr.typeError rfl,
   c5_extractor_total.2.1 (PyVal.int 3) rfl,
   c5_extractor_total.2.2.1 [("content", PyVal.str "x")] rfl⟩

/-- The data of a resolved timezone, as far as `strftime` uses it: the
abbreviation printed by the Z directive and the UTC offset printed by the z
directive (e.g. "+0530"). -/
structure ZoneInfoData where
  abbr : String
  offset : String
deriving DecidableEq, Repr

/-- A wall-clock instant, as far as the format string of line 48 uses it. -/
structure PyDateTime where
  year : Nat
  month : Nat
  day : Nat
  hour : Nat
  minute : Nat
  second : Nat
deriving DecidableEq, Repr

/-- Two-digit zero padding of the m, d, H, M, S directives. -/
def pad2 (n : Nat) : String :=
  if n < 10 then "0" ++ toString n else toString n

/-- Four-digit zero padding of the Y directive. -/
def pad4 (n : Nat) : String :=
  if n < 10 then "000" ++ toString n
  else if n < 100 then "00" ++ toString n
  else if n < 1000 then "0" ++ toString n
  else toString n

/-- `now.strftime` with the fixed format of line 48: year-month-day
hour:minute:second space abbreviation offset. -/
def strftimeFixed (dt : PyDateTime) (tz : ZoneInfoData) : String :=
  pad4 dt.year ++ "-" ++ pad2 dt.month ++ "-" ++ pad2 dt.day ++ " " ++
  pad2 dt.hour ++ ":" ++ pad2 dt.minute ++ ":" ++ pad2 dt.second ++ " " ++
  tz.abbr ++ tz.offset

/-- `get_time_func` (lines 43-50). The system timezone database and the clock
are external: `resolve` embeds the `ZoneInfo` constructor, returning the zone
data or the text of the exception it raises, and `now` embeds
`datetime.now(tz)`. On success the current instant is formatted; any exception
is converted into the self-describing failure string of line 50. -/
def get_time_func (resolve : String → Except String ZoneInfoData)
    (now : ZoneInfoData → PyDateTime) (timezone : String) : String :=
  match resolve timezone with
  | .ok tz => strftimeFixed (now tz) tz
  | .error e => "Failed to get time for " ++ timezone ++ ": " ++ e

/-- C6: for every timezone string, every timezone database and every clock,
`get_time_func` is total (it never raises): on successful resolution it
returns the formatted current time, and on any resolution failure it returns
the failure prefix "Failed to get time for <name>:" followed by the error
description. -/
theorem c6_get_time_never_raises (resolve : String → Except String ZoneInfoData)
    (now : ZoneInfoData → PyDateTime) (timezone : String) :
    (∀ tz, resolve timezone = Except.ok tz →
      get_time_func resolve now timezone = strftimeFixed (now tz) tz) ∧
    (∀ e, resolve timezone = Except.error e →
      ∃ rest, get_time_func resolve now timezone =
        "Failed to get time for " ++ timezone ++ ":" ++ rest) := by
  constructor
  · intro tz h
    simp [get_time_func, h]
  · intro e h
    refine ⟨" " ++ e, ?_⟩
    simp only [get_time_func, h]
    rw [String.append_assoc ("Failed to get time for " ++ timezone) ":" (" " ++ e),
      ← String.append_assoc ":" " " e,
      show ((":" ++ " " : String)) = ": " by decide,
      String.append_assoc]

/-- C6 witness: a database that rejects the name "Invalid/Timezone" with
description "unknown tz" yields the failure string with its prefix intact. -/
theorem c6_witness :
    ∃ rest,
      get_time_func (fun _ => Except.error "unknown tz")
        (fun _ => ⟨2024, 1, 1, 0, 0, 0⟩) "Invalid/Timezone" =
        "Failed to get time for " ++ "Invalid/Timezone" ++ ":" ++ rest :=
  (c6_get_time_never_raises (fun _ => Except.error "unknown tz")
    (fun _ => ⟨2024, 1, 1, 0, 0, 0⟩) "Invalid/Timezone").2 "unknown tz" rfl

/-- A task record of the store. Modelled from the spec: the Task Store
contract gives `TaskRecord` fields `id` (stable integer), `title` and `isComplete`
(the `src/models` and `src/services` modules are not among the sources). -/
structure TaskRecord where
  id : Int
  title : String
  isComplete : Bool
deriving DecidableEq, Repr

/-- Modelled from the spec: `getTaskById(id) → Task or absent` of the Task
Store external collaborator; absent signals not-found, never an error. -/
def get_task_by_id (store : List TaskRecord) (id : Int) : Option TaskRecord :=
  store.find? fun t => t.id == id

/-- Modelled from the spec: `getAllTasks() → sequence of Task`. -/
def get_all_tasks (store : List TaskRecord) : List TaskRecord := store

/-- Modelled from the spec: `updateTask(id, title?, isComplete?) → Task or
absent`; fields omitted are left unchanged by the store. -/
def update_task (store : List TaskRecord) (id : Int) (title : Option String)
    (isComplete : Option Bool) : Option TaskRecord :=
  match get_task_by_id store id with
  | Option.none => Option.none
  | some t => some { t with title := title.getD t.title,
                            isComplete := isComplete.getD t.isComplete }

/-- Modelled from the spec: `deleteTask(id) → boolean`; `false` signals
not-found. -/
def delete_task (store : List TaskRecord) (id : Int) : Bool :=
  (get_task_by_id store id).isSome

/-- The `getTask` tool body (lines 134-145), over the store result. -/
def get_task_tool (store : List TaskRecord) (id : Int) : String :=
  match get_task_by_id store id with
  | Option.none => "Task with ID " ++ toString id ++ " not found."
  | some task =>
    "Task " ++ toString task.id ++ ": \"" ++ task.title ++ "\" - Status: " ++
      (if task.isComplete then "Complete" else "Incomplete")

/-- The `getTasks` tool body (lines 118-132). -/
def get_tasks_tool (store : List TaskRecord) : String :=
  let tasks := get_all_tasks store
  if tasks.isEmpty then "No tasks found."
  else
    "Found " ++ toString tasks.length ++ " tasks:\n" ++
      String.intercalate "\n" (tasks.map fun t =>
        "- " ++ toString t.id ++ ": " ++ t.title ++ " (" ++
          (if t.isComplete then "Complete" else "Incomplete") ++ ")")

/-- The `updateTask` tool body (lines 160-169). -/
def update_task_tool (store : List TaskRecord) (id : Int) (title : Option String)
    (isComplete : Option Bool) : String :=
  match update_task store id title isComplete with
  | Option.none => "Task with ID " ++ toString id ++ " not found."
  | some _ => "Task " ++ toString id ++ " updated successfully."

/-- The `deleteTask` tool body (lines 171-180). -/
def delete_task_tool (store : List TaskRecord) (id : Int) : String :=
  if delete_task store id then "Task " ++ toString id ++ " deleted successfully."
  else "Task with ID " ++ toString id ++ " not found."

/-- C8: for every id absent from the task store, `getTask`, `updateTask` and
`deleteTask` each return the "Task with ID <id> not found." status string
rather than an error, and `getTasks` on the empty store returns the explicit
"No tasks found." message rather than an empty list; every outcome is plain
text, with no exception path on these expected business outcomes. -/
theorem c8_tools_plain_text_not_found (store : List TaskRecord) (id : Int)
    (title : Option String) (isComplete : Option Bool)
    (habs : ∀ t ∈ store, t.id ≠ id) :
    get_task_tool store id = "Task with ID " ++ toString id ++ " not found." ∧
    update_task_tool store id title isComplete =
      "Task with ID " ++ toString id ++ " not found." ∧
    delete_task_tool store id = "Task with ID " ++ toString id ++ " not found." ∧
    get_tasks_tool [] = "No tasks found." := by
  have hfind : get_task_by_id store id = Option.none := by
    rw [get_task_by_id, List.find?_eq_none]
    intro t ht
    simpa using habs t ht
  refine ⟨?_, ?_, ?_, rfl⟩
  · rw [get_task_tool, hfind]
  · rw [update_task_tool, update_task, hfind]
  · rw [delete_task_tool, delete_task, hfind]
    rfl

/-- C8 witness: a store holding one task with id 1 queried at the absent id 2
yields the three not-found strings and the empty store yields the no-tasks
message. -/
theorem c8_witness :
    get_task_tool [⟨1, "a", false⟩] 2 = "Task with ID " ++ toString (2 : Int) ++ " not found." ∧
    update_task_tool [⟨1, "a", false⟩] 2 Option.none Option.none =
      "Task with ID " ++ toString (2 : Int) ++ " not found." ∧
    delete_task_tool [⟨1, "a", false⟩] 2 =
      "Task with ID " ++ toString (2 : Int) ++ " not found." ∧
    get_tasks_tool [] = "No tasks found." :=
  c8_tools_plain_text_not_found [⟨1, "a", false⟩] 2 Option.none Option.none (by decide)

/-- The mutable state of a `LangGraphTaskAgent` instance that `process_message`
touches: whether construction produced a reasoning engine (`self.agent`), the
`session_ids` dictionary mapping external session identifiers to thread
identifiers, and a freshness source standing for the stream of `uuid.uuid4()`
draws (each draw is a token never produced before; injectivity and
non-emptiness are the only properties of uuid4 the development uses). -/
structure AgentState where
  configured : Bool
  session_ids : List (String × String)
  uuidCounter : Nat
deriving DecidableEq, Repr

/-- The n-th draw of the uuid4 stream, embedded as an injective, never-empty
token generator. -/
def uuid4 (n : Nat) : String := String.mk (List.replicate (n + 1) 'u')

theorem uuid4_ne_empty (n : Nat) : uuid4 n ≠ "" := by
  intro h
  have hdata : (uuid4 n).data = ("" : String).data := by rw [h]
  simp [uuid4] at hdata

theorem uuid4_injective (a b : Nat) (h : uuid4 a = uuid4 b) : a = b := by
  have hlen : (uuid4 a).data.length = (uuid4 b).data.length := by rw [h]
  simpa [uuid4] using hlen

/-- A fresh thread with no recorded mapping: the `else` branch of line 215 and
the falsy-`session_id` case of line 209. -/
def fresh_thread (st : AgentState) : String × AgentState :=
  (uuid4 st.uuidCounter, { st with uuidCounter := st.uuidCounter + 1 })

/-- Lines 209-215 of `process_message`: `if session_id:` (truthiness — the
empty string counts as absent), then `self.session_ids.get(session_id)`,
`if not thread_id:` create a fresh uuid and record it, else reuse the stored
one. -/
def resolve_thread (st : AgentState) (session_id : Option String) : String × AgentState :=
  match session_id with
  | some sid =>
    if sid = "" then fresh_thread st
    else
      let thread_id := (st.session_ids.lookup sid).getD ""
      if thread_id = "" then
        let tid := uuid4 st.uuidCounter
        (tid, { st with session_ids := (sid, tid) :: st.session_ids,
                        uuidCounter := st.uuidCounter + 1 })
      else (thread_id, st)
  | Option.none => fresh_thread st

/-- Modelled from the spec: the reply role tag of `src/models` (not among the
sources); this layer only ever constructs assistant replies. -/
inductive Role where
  | user : Role
  | assistant : Role
deriving DecidableEq, Repr

/-- Modelled from the spec: the `AgentReply`/`ChatMessage` record of
`src/models` (not among the sources) — a role tag plus the content the
orchestrator passes it. -/
structure ChatMessage where
  role : Role
  content : PyVal
deriving Repr

/-- Observable effects of one `process_message` call, in order: the inline
session resolution and the single `self.agent.ainvoke` call (tool execution
happens only inside the latter). -/
inductive Event where
  | threadResolved : Option String → String → Event
  | engineInvoked : String → String → Event
deriving Repr

/-- The fixed degraded-mode reply of lines 202-205. -/
def notConfiguredReply : ChatMessage :=
  ⟨Role.assistant, PyVal.str "LangGraph agent is not properly configured. Please check your Azure OpenAI settings."⟩

/-- The fixed generic failure reply of lines 236-239. -/
def genericFailureReply : ChatMessage :=
  ⟨Role.assistant, PyVal.str "I apologize, but I encountered an error processing your request."⟩

/-- `process_message` (lines 190-239). The reasoning engine is the oracle
`engine`, taking the user message and the resolved thread id and returning the
transcript it produced or the exception it raised; `self.agent.ainvoke` is its
only use. The `try` of lines 207-234 catches every exception of the turn and
returns the fixed generic failure reply; the state reached before the raise is
kept (Python mutates `self.session_ids` in place). The call also yields the
trace of its observable effects. -/
def process_message (st : AgentState) (engine : String → String → Except PyErr PyVal)
    (message : String) (session_id : Option String) :
    ChatMessage × AgentState × List Event :=
  if st.configured = false then (notConfiguredReply, st, [])
  else
    match engine message (resolve_thread st session_id).1 with
    | .ok result =>
      (⟨Role.assistant, extract_assistant_text result⟩,
       (resolve_thread st session_id).2,
       [Event.threadResolved session_id (resolve_thread st session_id).1,
        Event.engineInvoked message (resolve_thread st session_id).1])
    | .error _ =>
      (genericFailureReply,
       (resolve_thread st session_id).2,
       [Event.threadResolved session_id (resolve_thread st session_id).1,
        Event.engineInvoked message (resolve_thread st session_id).1])

/-- A successful association-list lookup is a member of the list. -/
theorem lookup_mem_str {s t : String} :
    ∀ {l : List (String × String)}, l.lookup s = some t → (s, t) ∈ l := by
  intro l
  induction l with
  | nil => intro h; simp [List.lookup] at h
  | cons p rest ih =>
      obtain ⟨k, v⟩ := p
      intro h
      by_cases hk : s = k
      · subst hk
        simp [List.lookup] at h
        subst h
        exact List.mem_cons_self _ _
      · have hbeq : (s == k) = false := beq_eq_false_iff_ne.mpr hk
        simp [List.lookup, hbeq] at h
        exact List.mem_cons_of_mem _ (ih h)

theorem lookup_cons_self {k v : String} {l : List (String × String)} :
    ((k, v) :: l).lookup k = some v := by
  simp [List.lookup]

theorem lookup_cons_ne {k q v : String} {l : List (String × String)} (h : q ≠ k) :
    ((k, v) :: l).lookup q = l.lookup q := by
  have hbeq : (q == k) = false := beq_eq_false_iff_ne.mpr h
  simp [List.lookup, hbeq]

/-- The router invariant maintained for the life of the process: every stored
thread id is an earlier uuid4 draw (hence non-empty), and distinct stored
session keys hold distinct thread ids. -/
def StateInv (st : AgentState) : Prop :=
  (∀ p ∈ st.session_ids, ∃ n, n < st.uuidCounter ∧ p.2 = uuid4 n) ∧
  (∀ s1 s2 t1 t2, s1 ≠ s2 → st.session_ids.lookup s1 = some t1 →
    st.session_ids.lookup s2 = some t2 → t1 ≠ t2)

theorem StateInv.lookup_uuid {st : AgentState} (h : StateInv st) {s t : String}
    (hl : st.session_ids.lookup s = some t) :
    ∃ n, n < st.uuidCounter ∧ t = uuid4 n :=
  h.1 (s, t) (lookup_mem_str hl)

theorem StateInv.lookup_ne_empty {st : AgentState} (h : StateInv st) {s t : String}
    (hl : st.session_ids.lookup s = some t) : t ≠ "" := by
  obtain ⟨n, _, rfl⟩ := h.lookup_uuid hl
  exact uuid4_ne_empty n

/-- Exhaustive behaviour of the router: reuse of a stored truthy thread id,
creation and recording of a fresh one, or an unrecorded fresh thread when the
session identifier is absent or falsy. -/
theorem resolve_thread_cases (st : AgentState) (sid : Option String) :
    (∃ s t, sid = some s ∧ s ≠ "" ∧ st.session_ids.lookup s = some t ∧ t ≠ "" ∧
      resolve_thread st sid = (t, st)) ∨
    (∃ s, sid = some s ∧ s ≠ "" ∧ (st.session_ids.lookup s).getD "" = "" ∧
      resolve_thread st sid = (uuid4 st.uuidCounter,
        { st with session_ids := (s, uuid4 st.uuidCounter) :: st.session_ids,
                  uuidCounter := st.uuidCounter + 1 })) ∨
    ((sid = Option.none ∨ sid = some "") ∧ resolve_thread st sid = fresh_thread st) := by
  match sid with
  | Option.none => exact Or.inr (Or.inr ⟨Or.inl rfl, rfl⟩)
  | some s =>
      by_cases hs : s = ""
      · subst hs
        exact Or.inr (Or.inr ⟨Or.inr rfl, by simp [resolve_thread]⟩)
      · cases hl : st.session_ids.lookup s with
        | none =>
            exact Or.inr (Or.inl ⟨s, rfl, hs, by simp [hl],
              by simp [resolve_thread, hs, hl]⟩)
        | some t =>
            by_cases ht : t = ""
            · exact Or.inr (Or.inl ⟨s, rfl, hs, by simp [hl, ht],
                by simp [resolve_thread, hs, hl, ht]⟩)
            · exact Or.inl ⟨s, t, rfl, hs, hl, ht,
                by simp [resolve_thread, hs, hl, ht]⟩

/-- A recorded truthy mapping is reused verbatim: no new id, no state change. -/
theorem resolve_thread_known {st : AgentState} {s t : String} (hs : s ≠ "")
    (hl : st.session_ids.lookup s = some t) (ht : t ≠ "") :
    resolve_thread st (some s) = (t, st) := by
  simp [resolve_thread, hs, hl, ht]

/-- An unknown non-empty session identifier draws a fresh uuid and records it
before anything else happens. -/
theorem resolve_thread_new {st : AgentState} {s : String} (hs : s ≠ "")
    (hl : st.session_ids.lookup s = Option.none) :
    resolve_thread st (some s) =
      (uuid4 st.uuidCounter,
       { st with session_ids := (s, uuid4 st.uuidCounter) :: st.session_ids,
                 uuidCounter := st.uuidCounter + 1 }) := by
  simp [resolve_thread, hs, hl]

/-- The router preserves the invariant. -/
theorem resolve_thread_preserves_inv {st : AgentState} (hinv : StateInv st)
    (sid : Option String) : StateInv (resolve_thread st sid).2 := by
  rcases resolve_thread_cases st sid with
    ⟨s, t, hsid, hs, hl, ht, heq⟩ | ⟨s, hsid, hs, hgetd, heq⟩ | ⟨hsid, heq⟩
  · rw [heq]; exact hinv
  · rw [heq]
    constructor
    · intro p hp
      rcases List.mem_cons.mp hp with rfl | hp2
      · exact ⟨st.uuidCounter, Nat.lt_succ_self _, rfl⟩
      · obtain ⟨n, hn, hu⟩ := hinv.1 p hp2
        exact ⟨n, Nat.lt_succ_of_lt hn, hu⟩
    · intro s1 s2 t1 t2 hne hl1 hl2
      by_cases he1 : s1 = s
      · subst he1
        rw [lookup_cons_self] at hl1
        rw [lookup_cons_ne (Ne.symm hne)] at hl2
        obtain ⟨n, hn, hu⟩ := hinv.lookup_uuid hl2
        injection hl1 with hl1
        rw [← hl1, hu]
        intro hcontra
        exact absurd (uuid4_injective _ _ hcontra) (Nat.ne_of_gt hn)
      · rw [lookup_cons_ne he1] at hl1
        by_cases he2 : s2 = s
        · subst he2
          rw [lookup_cons_self] at hl2
          obtain ⟨n, hn, hu⟩ := hinv.lookup_uuid hl1
          injection hl2 with hl2
          rw [← hl2, hu]
          intro hcontra
          exact absurd (uuid4_injective _ _ hcontra) (Nat.ne_of_lt hn)
        · rw [lookup_cons_ne he2] at hl2
          exact hinv.2 s1 s2 t1 t2 hne hl1 hl2
  · rw [heq]
    refine ⟨?_, hinv.2⟩
    intro p hp
    obtain ⟨n, hn, hu⟩ := hinv.1 p hp
    exact ⟨n, Nat.lt_succ_of_lt hn, hu⟩

/-- After resolving a non-empty session identifier, the state maps it to the
returned thread id. -/
theorem resolve_thread_lookup_self {st : AgentState}
    {s : String} (hs : s ≠ "") :
    ((resolve_thread st (some s)).2).session_ids.lookup s =
      some (resolve_thread st (some s)).1 := by
  rcases resolve_thread_cases st (some s) with
    ⟨s2, t, hsid, hs2, hl, ht, heq⟩ | ⟨s2, hsid, hs2, hgetd, heq⟩ | ⟨hsid, heq⟩
  · injection hsid with hss
    subst hss
    rw [heq]
    exact hl
  · injection hsid with hss
    subst hss
    rw [heq]
    exact lookup_cons_self
  · rcases hsid with hnone | hempty
    · exact absurd hnone (by simp)
    · injection hempty with hh
      exact absurd hh hs

/-- The thread id returned for a non-empty session identifier is never the
empty string. -/
theorem resolve_thread_tid_ne_empty {st : AgentState}
    {s : String} (hs : s ≠ "") : (resolve_thread st (some s)).1 ≠ "" := by
  rcases resolve_thread_cases st (some s) with
    ⟨s2, t, hsid, hs2, hl, ht, heq⟩ | ⟨s2, hsid, hs2, hgetd, heq⟩ | ⟨hsid, heq⟩
  · rw [heq]; exact ht
  · rw [heq]; exact uuid4_ne_empty _
  · rcases hsid with hnone | hempty
    · exact absurd hnone (by simp)
    · injection hempty with hh
      exact absurd hh hs

/-- A recorded truthy mapping survives every later resolution, whatever its
session identifier: the entry is never overwritten. -/
theorem resolve_thread_lookup_preserved {st : AgentState} {s t : String}
    (hl : st.session_ids.lookup s = some t) (ht : t ≠ "") (sid : Option String) :
    ((resolve_thread st sid).2).session_ids.lookup s = some t := by
  rcases resolve_thread_cases st sid with
    ⟨s2, t2, hsid, hs2, hl2, ht2, heq⟩ | ⟨s2, hsid, hs2, hgetd, heq⟩ | ⟨hsid, heq⟩
  · rw [heq]; exact hl
  · rw [heq]
    by_cases hss : s = s2
    · subst hss
      rw [hl] at hgetd
      simp at hgetd
      exact absurd hgetd ht
    · rw [lookup_cons_ne hss]
      exact hl
  · rw [heq]
    simpa [fresh_thread] using hl

/-- States of one agent instance over the life of the process: the freshly
constructed instance, followed by any sequence of `process_message` calls with
arbitrary messages, session identifiers and engine behaviours. -/
inductive ProcReachable : AgentState → Prop where
  | init (configured : Bool) : ProcReachable ⟨configured, [], 0⟩
  | step (st : AgentState) (engine : String → String → Except PyErr PyVal)
      (message : String) (session_id : Option String) :
      ProcReachable st →
      ProcReachable (process_message st engine message session_id).2.1

/-- Every reachable state satisfies the router invariant. -/
theorem ProcReachable.inv {st : AgentState} (h : ProcReachable st) : StateInv st := by
  induction h with
  | init b =>
      exact ⟨by simp, by simp [List.lookup]⟩
  | step st engine message session_id _ ih =>
      rw [process_message]
      by_cases hc : st.configured = false
      · rw [if_pos hc]
        exact ih
      · rw [if_neg hc]
        cases engine message (resolve_thread st session_id).1 with
        | ok r => exact resolve_thread_preserves_inv ih session_id
        | error e => exact resolve_thread_preserves_inv ih session_id

/-- C2 counterexample: the claim quantifies over every session identifier, but
the source guards the mapping with `if session_id:`, so the empty string — a
legitimate opaque identifier — is treated as absent: two sequential
resolutions for the empty string return two different thread ids, and no
mapping entry is recorded at all. -/
theorem c2_counterexample :
    (resolve_thread (resolve_thread ⟨true, [], 0⟩ (some "")).2 (some "")).1 ≠
      (resolve_thread ⟨true, [], 0⟩ (some "")).1 ∧
    ((resolve_thread ⟨true, [], 0⟩ (some "")).2).session_ids = [] := by
  constructor
  · decide
  · rfl

/-- C2 (amended): for every non-empty session identifier — the empty string is
treated as an absent identifier and never recorded — the mapping is a stable
injective function for the life of the process: in every reachable state, two
sequential resolutions of s1 return the same thread id, a resolution of a
distinct non-empty s2 returns a different thread id, and the mapping entry for
s1, once written, is never overwritten by any later resolution. -/
theorem c2_session_map_stable_injective (st : AgentState) (hr : ProcReachable st)
    (s1 s2 : String) (h1 : s1 ≠ "") (h2 : s2 ≠ "") (hne : s1 ≠ s2) :
    (resolve_thread (resolve_thread st (some s1)).2 (some s1)).1 =
      (resolve_thread st (some s1)).1 ∧
    (resolve_thread (resolve_thread st (some s1)).2 (some s2)).1 ≠
      (resolve_thread st (some s1)).1 ∧
    (∀ sid' : Option String,
      ((resolve_thread (resolve_thread st (some s1)).2 sid').2).session_ids.lookup s1 =
        some (resolve_thread st (some s1)).1) := by
  have hinv := hr.inv
  have hinv1 := resolve_thread_preserves_inv hinv (some s1)
  have hself := @resolve_thread_lookup_self st s1 h1
  have htne := @resolve_thread_tid_ne_empty st s1 h1
  refine ⟨?_, ?_, ?_⟩
  · rw [resolve_thread_known h1 hself htne]
  · rcases resolve_thread_cases (resolve_thread st (some s1)).2 (some s2) with
      ⟨s3, t3, hsid, hs3, hl3, ht3, heq⟩ | ⟨s3, hsid, hs3, hgetd, heq⟩ | ⟨hsid, heq⟩
    · injection hsid with hss
      subst hss
      rw [heq]
      exact hinv1.2 s2 s1 _ _ (Ne.symm hne) hl3 hself
    · rw [heq]
      obtain ⟨n, hn, hu⟩ := hinv1.lookup_uuid hself
      rw [hu]
      intro hcontra
      exact absurd (uuid4_injective _ _ hcontra) (Nat.ne_of_gt hn)
    · rcases hsid with hnone | hempty
      · exact absurd hnone (by simp)
      · injection hempty with hh
        exact absurd hh h2
  · intro sid'
    exact resolve_thread_lookup_preserved hself htne sid'

/-- C2 witness: from the freshly constructed instance, resolving "a" twice
returns the same thread id. -/
theorem c2_witness :
    (resolve_thread (resolve_thread ⟨true, [], 0⟩ (some "a")).2 (some "a")).1 =
      (resolve_thread ⟨true, [], 0⟩ (some "a")).1 :=
  (c2_session_map_stable_injective ⟨true, [], 0⟩ (ProcReachable.init true) "a" "b"
    (by decide) (by decide) (by decide)).1

/-- An engine oracle that always raises. -/
def engineAlwaysFails : String → String → Except PyErr PyVal :=
  fun _ _ => Except.error PyErr.typeError

/-- C1: for every state, engine behaviour, message and optional session
identifier, `process_message` returns a well-formed reply whose role is
assistant, and whenever the engine invocation raises, the reply is the fixed
generic failure reply: no exception of the turn reaches the caller. The
embedded `process_message` is a total function; the session resolution is
exception-free and the extractor absorbs its own exceptions
(`c5_extractor_total`), so the engine is the only raiser the `try` of lines
207-239 has to convert. -/
theorem c1_process_message_always_replies (st : AgentState)
    (engine : String → String → Except PyErr PyVal) (message : String)
    (session_id : Option String) :
    (process_message st engine message session_id).1.role = Role.assistant ∧
    (∀ e : PyErr, st.configured = true →
      engine message (resolve_thread st session_id).1 = Except.error e →
      (process_message st engine message session_id).1 = genericFailureReply) := by
  constructor
  · rw [process_message]
    by_cases hc : st.configured = false
    · rw [if_pos hc]
      rfl
    · rw [if_neg hc]
      cases engine message (resolve_thread st session_id).1 with
      | ok r => rfl
      | error e => rfl
  · intro e hconf herr
    rw [process_message, if_neg (by simp [hconf]), herr]

/-- C1 witness: a configured instance whose engine raises returns the fixed
generic failure reply. -/
theorem c1_witness :
    (process_message ⟨true, [], 0⟩ engineAlwaysFails "hello" (some "s1")).1 =
      genericFailureReply :=
  (c1_process_message_always_replies ⟨true, [], 0⟩ engineAlwaysFails "hello"
    (some "s1")).2 PyErr.typeError rfl rfl

/-- C7: when the reasoning engine failed to initialize at startup, every call
returns the fixed "not configured" assistant reply, the state is unchanged and
the event trace is empty: no thread resolution, no engine invocation, and
hence no tool execution (tools only run inside the engine invocation); the
embedded function is total, so nothing is raised. -/
theorem c7_not_configured_fixed_reply (st : AgentState)
    (engine : String → String → Except PyErr PyVal) (message : String)
    (session_id : Option String) (h : st.configured = false) :
    process_message st engine message session_id = (notConfiguredReply, st, []) := by
  rw [process_message, if_pos h]

/-- C7 witness: the unconfigured instance returns the fixed reply with empty
trace for a concrete call. -/
theorem c7_witness :
    process_message ⟨false, [], 0⟩ engineAlwaysFails "hello" (some "s1") =
      (notConfiguredReply, ⟨false, [], 0⟩, []) :=
  c7_not_configured_fixed_reply ⟨false, [], 0⟩ engineAlwaysFails "hello" (some "s1") rfl

/-- C10 (amended): for a previously unknown NON-EMPTY session identifier, the
mapping is recorded before the engine is invoked (the trace resolves the
thread first and invokes the engine with exactly the stored id), and when the
engine raises the error path keeps the post-resolution state unchanged — the
fresh mapping is retained, so a later call with the same identifier reuses the
thread id created during the failed turn. The empty-string sessionId is
excluded: it is always previously unknown, yet the truthiness guard of line
209 records no mapping for it and a later call draws a different fresh thread
id (see the counterexample below). -/
theorem c10_mapping_kept_on_engine_failure (st : AgentState)
    (engine : String → String → Except PyErr PyVal) (message : String)
    (s : String) (e : PyErr) (hconf : st.configured = true) (hs : s ≠ "")
    (hnew : st.session_ids.lookup s = Option.none)
    (herr : engine message (uuid4 st.uuidCounter) = Except.error e) :
    process_message st engine message (some s) =
      (genericFailureReply,
       { st with session_ids := (s, uuid4 st.uuidCounter) :: st.session_ids,
                 uuidCounter := st.uuidCounter + 1 },
       [Event.threadResolved (some s) (uuid4 st.uuidCounter),
        Event.engineInvoked message (uuid4 st.uuidCounter)]) ∧
    (resolve_thread (process_message st engine message (some s)).2.1 (some s)).1 =
      uuid4 st.uuidCounter := by
  have hres := resolve_thread_new hs hnew
  have hmain : process_message st engine message (some s) =
      (genericFailureReply,
       { st with session_ids := (s, uuid4 st.uuidCounter) :: st.session_ids,
                 uuidCounter := st.uuidCounter + 1 },
       [Event.threadResolved (some s) (uuid4 st.uuidCounter),
        Event.engineInvoked message (uuid4 st.uuidCounter)]) := by
    rw [process_message, if_neg (by simp [hconf]), hres]
    rw [show ((uuid4 st.uuidCounter,
      { st with session_ids := (s, uuid4 st.uuidCounter) :: st.session_ids,
                uuidCounter := st.uuidCounter + 1 }) : String × AgentState).1 =
      uuid4 st.uuidCounter from rfl, herr]
  refine ⟨hmain, ?_⟩
  rw [hmain]
  rw [resolve_thread_known hs lookup_cons_self (uuid4_ne_empty _)]

/-- C10 witness: a concrete failed first turn for session "s1" records the
mapping, keeps it, and a later resolution reuses it. -/
theorem c10_witness :
    process_message ⟨true, [], 0⟩ engineAlwaysFails "hi" (some "s1") =
      (genericFailureReply, ⟨true, [("s1", uuid4 0)], 1⟩,
       [Event.threadResolved (some "s1") (uuid4 0),
        Event.engineInvoked "hi" (uuid4 0)]) ∧
    (resolve_thread (process_message ⟨true, [], 0⟩ engineAlwaysFails "hi"
        (some "s1")).2.1 (some "s1")).1 = uuid4 0 :=
  c10_mapping_kept_on_engine_failure ⟨true, [], 0⟩ engineAlwaysFails "hi" "s1"
    PyErr.typeError rfl (by decide) rfl rfl

/-- One in-flight `process_message` turn, at await granularity: about to run
the synchronous resolution block (lines 209-218 contain no await), parked on
the `await self.agent.ainvoke` call, or done with it. -/
inductive CoStage where
  | start : CoStage
  | awaitingEngine : String → CoStage
  | finished : String → CoStage
deriving DecidableEq, Repr

/-- An in-flight turn: the session identifier it carries and its stage. -/
structure Coroutine where
  session_id : Option String
  stage : CoStage
deriving DecidableEq, Repr

/-- The thread id a turn resolved, if it is past the resolution segment. -/
def stageTid : CoStage → Option String
  | CoStage.start => Option.none
  | CoStage.awaitingEngine t => some t
  | CoStage.finished t => some t

/-- The whole event loop: the shared agent instance plus the in-flight turns. -/
structure AgentSystem where
  shared : AgentState
  tasks : List Coroutine
deriving Repr

/-- One scheduling step of the asyncio event loop. Code between awaits runs
atomically on the single loop thread, so the read-check-create resolution
block is one step; the engine call is the only suspension point of
`process_message`, and completing it touches no shared router state
(`session_locks` is initialized at line 69 but never used — the event loop
itself provides the exclusion). -/
inductive AStep : AgentSystem → AgentSystem → Prop where
  | resolve (st : AgentState) (l r : List Coroutine) (sid : Option String) :
      AStep ⟨st, l ++ ⟨sid, CoStage.start⟩ :: r⟩
            ⟨(resolve_thread st sid).2,
             l ++ ⟨sid, CoStage.awaitingEngine (resolve_thread st sid).1⟩ :: r⟩
  | complete (st : AgentState) (l r : List Coroutine) (sid : Option String) (tid : String) :
      AStep ⟨st, l ++ ⟨sid, CoStage.awaitingEngine tid⟩ :: r⟩
            ⟨st, l ++ ⟨sid, CoStage.finished tid⟩ :: r⟩

/-- Any number of scheduling steps. -/
inductive ASteps : AgentSystem → AgentSystem → Prop where
  | refl (sys : AgentSystem) : ASteps sys sys
  | tail (sys1 sys2 sys3 : AgentSystem) :
      ASteps sys1 sys2 → AStep sys2 sys3 → ASteps sys1 sys3

theorem tasks_mem_cases {l r : List Coroutine} {newc c : Coroutine}
    (h : c ∈ l ++ newc :: r) : c = newc ∨ c ∈ l ∨ c ∈ r := by
  rcases List.mem_append.mp h with h1 | h2
  · exact Or.inr (Or.inl h1)
  · rcases List.mem_cons.mp h2 with h3 | h4
    · exact Or.inl h3
    · exact Or.inr (Or.inr h4)

theorem tasks_mem_left {l r : List Coroutine} {midc c : Coroutine} (h : c ∈ l) :
    c ∈ l ++ midc :: r := List.mem_append.mpr (Or.inl h)

theorem tasks_mem_right {l r : List Coroutine} {midc c : Coroutine} (h : c ∈ r) :
    c ∈ l ++ midc :: r := List.mem_append.mpr (Or.inr (List.mem_cons_of_mem _ h))

theorem tasks_mem_mid {l r : List Coroutine} {midc : Coroutine} :
    midc ∈ l ++ midc :: r := List.mem_append.mpr (Or.inr (List.mem_cons_self _ _))

/-- The concurrency invariant for a fixed session identifier: either the
identifier is unmapped and no turn carrying it is past the resolution segment,
or the map holds exactly one entry for it — a non-empty thread id that every
resolved turn carrying the identifier agrees on. -/
def SysInv (s : String) (sys : AgentSystem) : Prop :=
  (∀ t, sys.shared.session_ids.lookup s = some t → t ≠ "" ∧
    sys.shared.session_ids.countP (fun p => p.1 == s) = 1 ∧
    ∀ c ∈ sys.tasks, c.session_id = some s →
      ∀ t2, stageTid c.stage = some t2 → t2 = t) ∧
  (sys.shared.session_ids.lookup s = Option.none →
    sys.shared.session_ids.countP (fun p => p.1 == s) = 0 ∧
    ∀ c ∈ sys.tasks, c.session_id = some s → c.stage = CoStage.start)

/-- Each scheduling step preserves the concurrency invariant. -/
theorem astep_preserves_sysInv {s : String} (hs : s ≠ "") {sys1 sys2 : AgentSystem}
    (hstep : AStep sys1 sys2) (hinv : SysInv s sys1) : SysInv s sys2 := by
  cases hstep with
  | complete st l r sid tid =>
      constructor
      · intro t hl
        obtain ⟨htne, hcount, hagree⟩ := hinv.1 t hl
        refine ⟨htne, hcount, ?_⟩
        intro c hc hcs t2 ht2
        rcases tasks_mem_cases hc with rfl | hcl | hcr
        · have htid : tid = t :=
            hagree ⟨sid, CoStage.awaitingEngine tid⟩ tasks_mem_mid hcs tid rfl
          simp [stageTid] at ht2
          rw [← ht2]
          exact htid
        · exact hagree c (tasks_mem_left hcl) hcs t2 ht2
        · exact hagree c (tasks_mem_right hcr) hcs t2 ht2
      · intro hl
        obtain ⟨hcount, hstart⟩ := hinv.2 hl
        refine ⟨hcount, ?_⟩
        intro c hc hcs
        rcases tasks_mem_cases hc with rfl | hcl | hcr
        · have := hstart ⟨sid, CoStage.awaitingEngine tid⟩ tasks_mem_mid hcs
          exact absurd this (by simp)
        · exact hstart c (tasks_mem_left hcl) hcs
        · exact hstart c (tasks_mem_right hcr) hcs
  | resolve st l r sid =>
      rcases resolve_thread_cases st sid with
        ⟨s2, t2, hsid, hs2, hl2, ht2, heq⟩ | ⟨s2, hsid, hs2, hgetd, heq⟩ | ⟨hsid, heq⟩
      · rw [heq]
        show SysInv s ⟨st, l ++ ⟨sid, CoStage.awaitingEngine t2⟩ :: r⟩
        constructor
        · intro t hl
          obtain ⟨htne, hcount, hagree⟩ := hinv.1 t hl
          refine ⟨htne, hcount, ?_⟩
          intro c hc hcs t3 ht3
          rcases tasks_mem_cases hc with rfl | hcl | hcr
          · rw [hsid] at hcs
            injection hcs with hcs2
            subst hcs2
            rw [hl] at hl2
            injection hl2 with h22
            simp [stageTid] at ht3
            rw [← ht3]
            exact h22.symm
          · exact hagree c (tasks_mem_left hcl) hcs t3 ht3
          · exact hagree c (tasks_mem_right hcr) hcs t3 ht3
        · intro hl
          obtain ⟨hcount, hstart⟩ := hinv.2 hl
          refine ⟨hcount, ?_⟩
          intro c hc hcs
          rcases tasks_mem_cases hc with rfl | hcl | hcr
          · rw [hsid] at hcs
            injection hcs with hcs2
            subst hcs2
            rw [hl] at hl2
            exact absurd hl2 (by simp)
          · exact hstart c (tasks_mem_left hcl) hcs
          · exact hstart c (tasks_mem_right hcr) hcs
      · rw [heq]
        show SysInv s
          ⟨{ st with session_ids := (s2, uuid4 st.uuidCounter) :: st.session_ids,
                     uuidCounter := st.uuidCounter + 1 },
           l ++ ⟨sid, CoStage.awaitingEngine (uuid4 st.uuidCounter)⟩ :: r⟩
        by_cases hss : s2 = s
        · subst hss
          cases hl : st.session_ids.lookup s2 with
          | some t =>
              rw [hl] at hgetd
              simp at hgetd
              obtain ⟨htne, _, _⟩ := hinv.1 t hl
              exact absurd hgetd htne
          | none =>
              obtain ⟨hcount, hstart⟩ := hinv.2 hl
              constructor
              · intro t hlt
                rw [lookup_cons_self] at hlt
                injection hlt with hlt2
                subst hlt2
                refine ⟨uuid4_ne_empty _, ?_, ?_⟩
                · rw [List.countP_cons]
                  simp [hcount]
                · intro c hc hcs t3 ht3
                  rcases tasks_mem_cases hc with rfl | hcl | hcr
                  · simp [stageTid] at ht3
                    exact ht3.symm
                  · have := hstart c (tasks_mem_left hcl) hcs
                    rw [this] at ht3
                    simp [stageTid] at ht3
                  · have := hstart c (tasks_mem_right hcr) hcs
                    rw [this] at ht3
                    simp [stageTid] at ht3
              · intro hlt
                rw [lookup_cons_self] at hlt
                exact absurd hlt (by simp)
        · have hlc : ((s2, uuid4 st.uuidCounter) :: st.session_ids).lookup s =
              st.session_ids.lookup s := lookup_cons_ne (Ne.symm hss)
          have hbf : ((s2, uuid4 st.uuidCounter).1 == s) = false :=
            beq_eq_false_iff_ne.mpr hss
          constructor
          · intro t hlt
            rw [hlc] at hlt
            obtain ⟨htne, hcount, hagree⟩ := hinv.1 t hlt
            refine ⟨htne, ?_, ?_⟩
            · rw [List.countP_cons, hbf]
              simpa using hcount
            · intro c hc hcs t3 ht3
              rcases tasks_mem_cases hc with rfl | hcl | hcr
              · rw [hsid] at hcs
                injection hcs with hcs2
                exact absurd hcs2 hss
              · exact hagree c (tasks_mem_left hcl) hcs t3 ht3
              · exact hagree c (tasks_mem_right hcr) hcs t3 ht3
          · intro hlt
            rw [hlc] at hlt
            obtain ⟨hcount, hstart⟩ := hinv.2 hlt
            refine ⟨?_, ?_⟩
            · rw [List.countP_cons, hbf]
              simpa using hcount
            · intro c hc hcs
              rcases tasks_mem_cases hc with rfl | hcl | hcr
              · rw [hsid] at hcs
                injection hcs with hcs2
                exact absurd hcs2 hss
              · exact hstart c (tasks_mem_left hcl) hcs
              · exact hstart c (tasks_mem_right hcr) hcs
      · rw [heq]
        show SysInv s ⟨{ st with uuidCounter := st.uuidCounter + 1 },
                       l ++ ⟨sid, CoStage.awaitingEngine (uuid4 st.uuidCounter)⟩ :: r⟩
        have hsids : sid ≠ some s := by
          rcases hsid with h | h
          · rw [h]; intro hx; exact absurd hx (by simp)
          · rw [h]; intro hx; injection hx with hx2; exact hs hx2.symm
        constructor
        · intro t hl
          obtain ⟨htne, hcount, hagree⟩ := hinv.1 t hl
          refine ⟨htne, hcount, ?_⟩
          intro c hc hcs t3 ht3
          rcases tasks_mem_cases hc with rfl | hcl | hcr
          · exact absurd hcs hsids
          · exact hagree c (tasks_mem_left hcl) hcs t3 ht3
          · exact hagree c (tasks_mem_right hcr) hcs t3 ht3
        · intro hl
          obtain ⟨hcount, hstart⟩ := hinv.2 hl
          refine ⟨hcount, ?_⟩
          intro c hc hcs
          rcases tasks_mem_cases hc with rfl | hcl | hcr
          · exact absurd hcs hsids
          · exact hstart c (tasks_mem_left hcl) hcs
          · exact hstart c (tasks_mem_right hcr) hcs

/-- Any number of scheduling steps preserve the concurrency invariant. -/
theorem asteps_preserve_sysInv {s : String} (hs : s ≠ "") {sys1 sys2 : AgentSystem}
    (hsteps : ASteps sys1 sys2) (hinv : SysInv s sys1) : SysInv s sys2 := by
  induction hsteps with
  | refl => exact hinv
  | tail sysb sysc hab hbc ih => exact astep_preserves_sysInv hs hbc ih

/-- A key counted zero times has no lookup entry. -/
theorem lookup_eq_none_of_countP_zero {s : String} :
    ∀ {l : List (String × String)}, l.countP (fun p => p.1 == s) = 0 →
      l.lookup s = Option.none := by
  intro l
  induction l with
  | nil => intro _; rfl
  | cons p rest ih =>
      obtain ⟨k, v⟩ := p
      intro h
      by_cases hk : s = k
      · subst hk
        rw [List.countP_cons] at h
        simp at h
      · have hbf : (k == s) = false := beq_eq_false_iff_ne.mpr fun hh => hk hh.symm
        have hrest : rest.countP (fun p => p.1 == s) = 0 := by
          rw [List.countP_cons, hbf] at h
          simpa using h
        rw [lookup_cons_ne hk]
        exact ih hrest

/-- C9 (amended): under any interleaving of in-flight turns at await
granularity — the faithful asyncio model, in which the read-check-create block
of lines 209-215 is one atomic segment because it contains no await — at most
one mapping entry is ever stored for a previously unknown NON-EMPTY session
identifier, and every turn carrying that identifier that has passed resolution
holds the same thread id: two concurrent first messages cannot fork into two
conversation histories. The empty-string identifier is excluded: the
truthiness guard of line 209 treats it as an absent sessionId, so concurrent
first messages for it do fork (see the counterexample below). -/
theorem c9_single_threadid_per_session (s : String) (st0 : AgentState)
    (cs : List Coroutine) (sys2 : AgentSystem) (hs : s ≠ "")
    (h0 : st0.session_ids.countP (fun p => p.1 == s) = 0)
    (hcs : ∀ c ∈ cs, c.stage = CoStage.start)
    (hsteps : ASteps ⟨st0, cs⟩ sys2) :
    sys2.shared.session_ids.countP (fun p => p.1 == s) ≤ 1 ∧
    (∀ c1 ∈ sys2.tasks, ∀ c2 ∈ sys2.tasks,
      c1.session_id = some s → c2.session_id = some s →
      ∀ t1 t2, stageTid c1.stage = some t1 → stageTid c2.stage = some t2 →
        t1 = t2) := by
  have hinv0 : SysInv s ⟨st0, cs⟩ := by
    constructor
    · intro t hl
      rw [lookup_eq_none_of_countP_zero h0] at hl
      exact absurd hl (by simp)
    · intro _
      exact ⟨h0, fun c hc _ => hcs c hc⟩
  have hinv2 := asteps_preserve_sysInv hs hsteps hinv0
  cases hl2 : sys2.shared.session_ids.lookup s with
  | some t =>
      obtain ⟨htne, hcount, hagree⟩ := hinv2.1 t hl2
      refine ⟨by omega, ?_⟩
      intro c1 hc1 c2 hc2 hs1 hs2 t1 t2 ht1 ht2
      rw [hagree c1 hc1 hs1 t1 ht1, hagree c2 hc2 hs2 t2 ht2]
  | none =>
      obtain ⟨hcount, hstart⟩ := hinv2.2 hl2
      refine ⟨by omega, ?_⟩
      intro c1 hc1 c2 hc2 hs1 hs2 t1 t2 ht1 ht2
      rw [hstart c1 hc1 hs1] at ht1
      simp [stageTid] at ht1

/-- C9 witness: two turns for the new session "s1" are scheduled one after the
other (a concrete interleaving); the final system holds exactly one mapping
entry for "s1". -/
theorem c9_witness :
    (⟨⟨true, [("s1", uuid4 0)], 1⟩,
      [⟨some "s1", CoStage.awaitingEngine (uuid4 0)⟩,
       ⟨some "s1", CoStage.awaitingEngine (uuid4 0)⟩]⟩ :
        AgentSystem).shared.session_ids.countP (fun p => p.1 == "s1") ≤ 1 := by
  have step1 := AStep.resolve (⟨true, [], 0⟩ : AgentState) []
    [⟨some "s1", CoStage.start⟩] (some "s1")
  have step2 := AStep.resolve (⟨true, [("s1", uuid4 0)], 1⟩ : AgentState)
    [⟨some "s1", CoStage.awaitingEngine (uuid4 0)⟩] [] (some "s1")
  have hsteps : ASteps
      ⟨⟨true, [], 0⟩, [⟨some "s1", CoStage.start⟩, ⟨some "s1", CoStage.start⟩]⟩
      ⟨⟨true, [("s1", uuid4 0)], 1⟩,
       [⟨some "s1", CoStage.awaitingEngine (uuid4 0)⟩,
        ⟨some "s1", CoStage.awaitingEngine (uuid4 0)⟩]⟩ :=
    ASteps.tail _ _ _ (ASteps.tail _ _ _ (ASteps.refl _) step1) step2
  exact (c9_single_threadid_per_session "s1" ⟨true, [], 0⟩
    [⟨some "s1", CoStage.start⟩, ⟨some "s1", CoStage.start⟩] _ (by decide) rfl
    (by decide) hsteps).1

/-- C9 counterexample: for the previously unknown session identifier "" — a
legitimate caller-supplied opaque string — the claim's universal fails: there
is a concrete interleaving of two concurrent first messages for "" (each
scheduled through its resolution segment) after which the two turns hold two
distinct thread ids and no mapping entry was ever stored, because the
truthiness guard of line 209 treats "" as an absent sessionId; the two turns
have forked into two unrelated conversation histories. -/
theorem c9_counterexample :
    ASteps
      ⟨⟨true, [], 0⟩, [⟨some "", CoStage.start⟩, ⟨some "", CoStage.start⟩]⟩
      ⟨⟨true, [], 2⟩, [⟨some "", CoStage.awaitingEngine (uuid4 0)⟩,
                       ⟨some "", CoStage.awaitingEngine (uuid4 1)⟩]⟩ ∧
    uuid4 0 ≠ uuid4 1 ∧
    ((⟨true, [], 2⟩ : AgentState)).session_ids = [] := by
  refine ⟨?_, by decide, rfl⟩
  have step1 := AStep.resolve (⟨true, [], 0⟩ : AgentState) []
    [⟨some "", CoStage.start⟩] (some "")
  have step2 := AStep.resolve (⟨true, [], 1⟩ : AgentState)
    [⟨some "", CoStage.awaitingEngine (uuid4 0)⟩] [] (some "")
  exact ASteps.tail _ _ _ (ASteps.tail _ _ _ (ASteps.refl _) step1) step2

/-- C10 counterexample: for the sessionId "" — previously unknown, as every
empty-keyed mapping is — the claim's universal fails: the failed turn invokes
the engine with the fresh thread id uuid4 0 but records no sessionId-to-thread
mapping at all (the error path retains a state whose map is still empty), and
a later call with the same sessionId resolves a different fresh thread id
instead of reusing the one created during the failed turn. -/
theorem c10_counterexample :
    (process_message ⟨true, [], 0⟩ engineAlwaysFails "hi" (some "")).2.1.session_ids = [] ∧
    (process_message ⟨true, [], 0⟩ engineAlwaysFails "hi" (some "")).2.2 =
      [Event.threadResolved (some "") (uuid4 0),
       Event.engineInvoked "hi" (uuid4 0)] ∧
    (resolve_thread (process_message ⟨true, [], 0⟩ engineAlwaysFails "hi" (some "")).2.1
        (some "")).1 ≠ uuid4 0 := by
  refine ⟨rfl, rfl, ?_⟩
  intro h
  exact absurd (uuid4_injective _ _ h) (by decide)
